import Mathlib

/-!
Verification of the `backoff` retry/backoff library against its
specification.  The repository ships only `backoff/__init__.py` (the public
surface: `constant`, `decay`, `expo`, `fibo`, `runtime`, `full_jitter`,
`random_jitter`, `on_exception`, `on_predicate`) and `backoff/_typing.py`
(the `Details` record passed to handlers); the modules implementing the wait
generators, the jitter functions and the retry controller
(`_wait_gen.py`, `_jitter.py`, `_decorator.py`, `_sync.py`, `_common.py`)
are absent, so those parts are modelled from the specification text, as the
doc comments below record.  Wait durations are modelled as rationals,
randomness as an explicit draw `u` from the unit interval, and wall-clock
time as an abstract `clock` function supplied to the controller.
-/

/-- A wait schedule: a stateless specification which, when started, produces
a lazy sequence of wait values.  `init` is the generator's initial state and
`next` yields the next wait value together with the successor state.  A new
sequence is started from `init` at the beginning of every wrapped call. -/
structure WaitSchedule (σ : Type) where
  init : σ
  next : σ → ℚ × σ

/-- State reached after `n` pulls from state `s` of a generator `next`. -/
def iterState {σ : Type} (next : σ → ℚ × σ) (s : σ) : Nat → σ
  | 0 => s
  | n + 1 => (next (iterState next s n)).2

/-- The `n`-th value (0-based) of the stream produced from state `s`. -/
def streamVal {σ : Type} (next : σ → ℚ × σ) (s : σ) (n : Nat) : ℚ :=
  (next (iterState next s n)).1

/-- The `n`-th value yielded by a schedule started fresh from `init`. -/
def WaitSchedule.valueAt {σ : Type} (sch : WaitSchedule σ) (n : Nat) : ℚ :=
  streamVal sch.next sch.init n

theorem iterState_shift {σ : Type} (next : σ → ℚ × σ) (s : σ) (n : Nat) :
    iterState next s (n + 1) = iterState next (next s).2 n := by
  induction n with
  | zero => rfl
  | succ n ih =>
    show (next (iterState next s (n + 1))).2 = _
    rw [ih]
    rfl

theorem streamVal_shift {σ : Type} (next : σ → ℚ × σ) (s : σ) (n : Nat) :
    streamVal next s (n + 1) = streamVal next (next s).2 n := by
  unfold streamVal
  rw [iterState_shift]

/-- Modelled from the spec (the file `_wait_gen.py` is absent from the
sources): the constant schedule repeats a fixed interval forever. -/
def constant (interval : ℚ) : WaitSchedule Unit where
  init := ()
  next := fun _ => (interval, ())

/-- Modelled from the spec (the file `_wait_gen.py` is absent from the
sources): the exponential schedule starts at `base` and multiplies by
`factor` each step; with an optional maximum it yields the current value
while that value is below the cap and otherwise yields the cap, leaving the
state unchanged (constant-at-cap, as the spec prescribes for capped
schedules). -/
def expoSchedule (base factor : ℚ) (maxValue : Option ℚ) : WaitSchedule ℚ where
  init := base
  next := fun a =>
    match maxValue with
    | none => (a, a * factor)
    | some m => if a < m then (a, a * factor) else (m, a)

/-- Modelled from the spec (the file `_wait_gen.py` is absent from the
sources): the fibonacci-like schedule is seeded `1, 1`, each term the sum of
the previous two; with an optional maximum it yields the current value while
below the cap and otherwise yields the cap forever, no longer advancing the
pair (the switch to constant-at-cap mode the spec requires). -/
def fiboSchedule (maxValue : Option ℚ) : WaitSchedule (ℚ × ℚ) where
  init := (1, 1)
  next := fun p =>
    match maxValue with
    | none => (p.1, (p.2, p.1 + p.2))
    | some m => if p.1 < m then (p.1, (p.2, p.1 + p.2)) else (m, p)

/-- Modelled from the spec (the file `_wait_gen.py` is absent from the
sources): the decaying schedule starts at `initialValue`, scales by
`decayFactor` each step and never yields below the floor `floorValue`. -/
def decay (initialValue decayFactor floorValue : ℚ) : WaitSchedule ℚ where
  init := initialValue
  next := fun a => (max floorValue a, a * decayFactor)

/-- Modelled from the spec (the file `_wait_gen.py` is absent from the
sources): the runtime schedule's wait for the next attempt is supplied by
the caller from the outcome of the attempt just made; `vs j` is the value
the caller's extractor produces after attempt `j`. -/
def runtime (vs : Nat → ℚ) : WaitSchedule Nat where
  init := 0
  next := fun j => (vs j, j + 1)

/-- Configuration-time rejection of an invalid schedule. -/
inductive ConfigError : Type
  | invalidCap : ConfigError
deriving DecidableEq

/-- Modelled from the spec (the wait-generator constructors are absent from
the sources): a maximum cap of 0 or below is invalid and rejected when the
schedule is configured, before any value is produced. -/
def capValid : Option ℚ → Bool
  | none => true
  | some m => decide (0 < m)

/-- Modelled from the spec: the public `expo` constructor validates the cap
at configuration time and only then yields a usable schedule. -/
def expo (base factor : ℚ) (maxValue : Option ℚ) :
    Except ConfigError (WaitSchedule ℚ) :=
  if capValid maxValue then Except.ok (expoSchedule base factor maxValue)
  else Except.error ConfigError.invalidCap

/-- Modelled from the spec: the public `fibo` constructor validates the cap
at configuration time and only then yields a usable schedule. -/
def fibo (maxValue : Option ℚ) : Except ConfigError (WaitSchedule (ℚ × ℚ)) :=
  if capValid maxValue then Except.ok (fiboSchedule maxValue)
  else Except.error ConfigError.invalidCap

/-- Modelled from the spec (the file `_jitter.py` is absent from the
sources): full jitter returns a uniformly random value in `[0, wait)`; the
random draw is modelled as `u` taken uniformly from `[0, 1)`. -/
def full_jitter (u wait : ℚ) : ℚ := u * wait

/-- Modelled from the spec (the file `_jitter.py` is absent from the
sources): random jitter returns `wait + uniform(0, jitterFraction * wait)`;
the random draw is modelled as `u` taken uniformly from `[0, 1)`. -/
def random_jitter (u jitterFraction wait : ℚ) : ℚ :=
  wait + u * (jitterFraction * wait)

/-- One attempt's raw outcome: the wrapped operation either raises an error
or returns a value. -/
inductive AttemptOutcome (E V : Type) : Type
  | raises : E → AttemptOutcome E V
  | returns : V → AttemptOutcome E V
deriving DecidableEq

/-- What one call of the wrapped operation delivers to the original caller:
either a returned value or a re-raised error (always the original error
object, never wrapped or altered). -/
inductive CallResult (E V : Type) : Type
  | value : V → CallResult E V
  | raised : E → CallResult E V
deriving DecidableEq

/-- Which family of event handlers an invocation belongs to. -/
inductive HandlerKind : Type
  | success : HandlerKind
  | backoff : HandlerKind
  | giveup : HandlerKind
deriving DecidableEq

/-- The record passed to every handler, embedding `Details` from
`backoff/_typing.py`: the required keys `target`, `args`, `kwargs`, `tries`
(1-based), `elapsed`, and the optional keys `wait`, `value`, `exception`
(absence modelled as `none`). -/
structure Details (A K E V : Type) where
  target : String
  args : A
  kwargs : K
  tries : Nat
  elapsed : ℚ
  wait : Option ℚ
  value : Option V
  exception : Option E
deriving DecidableEq

/-- One handler invocation: which handler family fired, with its record. -/
structure HandlerEvent (A K E V : Type) where
  kind : HandlerKind
  details : Details A K E V
deriving DecidableEq

/-- The observable trace of one call of a wrapped operation: the terminal
result, the total number of attempts made, and the handler invocations in
order (a configured handler collection is invoked once per event). -/
structure CallTrace (A K E V : Type) where
  result : CallResult E V
  tries : Nat
  events : List (HandlerEvent A K E V)
deriving DecidableEq

/-- Number of events of a given kind in an event list. -/
def countKind {A K E V : Type} (k : HandlerKind) :
    List (HandlerEvent A K E V) → Nat
  | [] => 0
  | ev :: rest => (if ev.kind = k then 1 else 0) + countKind k rest

/-- The wait values reported to `on_backoff` handlers, in order. -/
def backoffWaits {A K E V : Type} :
    List (HandlerEvent A K E V) → List ℚ
  | [] => []
  | ev :: rest =>
    match ev.kind, ev.details.wait with
    | HandlerKind.backoff, some w => w :: backoffWaits rest
    | _, _ => backoffWaits rest

/-- Modelled from the spec (the controller modules `_decorator.py`,
`_sync.py` and `_common.py` are absent from the sources): the
exception-mode retry loop.  `op j` is the outcome of attempt `j` (0-based),
`retryable` the configured error-type test, `giveup` the configured give-up
predicate, `jit` the jitter applied to each raw wait, `clock j` the elapsed
time observed at attempt `j`, `next` the wait generator and `fuel` the
number of backoffs still allowed (`max_tries - tries so far`).  A retryable
error with fuel left fires `on_backoff` (record carrying the jittered wait
and the exception) and retries; a retryable error with no fuel — or one the
`giveup` predicate accepts — fires `on_giveup` and re-raises the caught
error unchanged; a non-retryable error propagates at once with no handler;
a returned value fires `on_success` and is delivered. -/
def runExc {A K E V σ : Type} (tgt : String) (args : A) (kwargs : K)
    (retryable giveup : E → Bool) (jit : ℚ → ℚ) (clock : Nat → ℚ)
    (next : σ → ℚ × σ) (op : Nat → AttemptOutcome E V) :
    Nat → Nat → σ → CallTrace A K E V
  | 0, i, _ =>
    match op i with
    | AttemptOutcome.returns v =>
      { result := CallResult.value v
        tries := i + 1
        events := [⟨HandlerKind.success,
          ⟨tgt, args, kwargs, i + 1, clock i, none, none, none⟩⟩] }
    | AttemptOutcome.raises e =>
      if retryable e then
        { result := CallResult.raised e
          tries := i + 1
          events := [⟨HandlerKind.giveup,
            ⟨tgt, args, kwargs, i + 1, clock i, none, none, some e⟩⟩] }
      else
        { result := CallResult.raised e, tries := i + 1, events := [] }
  | fuel + 1, i, s =>
    match op i with
    | AttemptOutcome.returns v =>
      { result := CallResult.value v
        tries := i + 1
        events := [⟨HandlerKind.success,
          ⟨tgt, args, kwargs, i + 1, clock i, none, none, none⟩⟩] }
    | AttemptOutcome.raises e =>
      if retryable e then
        if giveup e then
          { result := CallResult.raised e
            tries := i + 1
            events := [⟨HandlerKind.giveup,
              ⟨tgt, args, kwargs, i + 1, clock i, none, none, some e⟩⟩] }
        else
          let rest := runExc tgt args kwargs retryable giveup jit clock
            next op fuel (i + 1) (next s).2
          { result := rest.result
            tries := rest.tries
            events := ⟨HandlerKind.backoff,
              ⟨tgt, args, kwargs, i + 1, clock i, some (jit (next s).1),
                none, some e⟩⟩ :: rest.events }
      else
        { result := CallResult.raised e, tries := i + 1, events := [] }

/-- Modelled from the spec (the controller modules are absent from the
sources): the predicate-mode retry loop.  A raised error propagates at once
with no handler and no retry; a returned value accepted by `pred` is
unsatisfactory — with fuel left `on_backoff` fires (record carrying the
value and the jittered wait) and the loop retries, with no fuel `on_giveup`
fires and the last unsatisfactory value is returned (no error is ever
fabricated); a value rejected by `pred` fires `on_success` and is
delivered. -/
def runPred {A K E V σ : Type} (tgt : String) (args : A) (kwargs : K)
    (pred : V → Bool) (jit : ℚ → ℚ) (clock : Nat → ℚ)
    (next : σ → ℚ × σ) (op : Nat → AttemptOutcome E V) :
    Nat → Nat → σ → CallTrace A K E V
  | 0, i, _ =>
    match op i with
    | AttemptOutcome.raises e =>
      { result := CallResult.raised e, tries := i + 1, events := [] }
    | AttemptOutcome.returns v =>
      if pred v then
        { result := CallResult.value v
          tries := i + 1
          events := [⟨HandlerKind.giveup,
            ⟨tgt, args, kwargs, i + 1, clock i, none, some v, none⟩⟩] }
      else
        { result := CallResult.value v
          tries := i + 1
          events := [⟨HandlerKind.success,
            ⟨tgt, args, kwargs, i + 1, clock i, none, some v, none⟩⟩] }
  | fuel + 1, i, s =>
    match op i with
    | AttemptOutcome.raises e =>
      { result := CallResult.raised e, tries := i + 1, events := [] }
    | AttemptOutcome.returns v =>
      if pred v then
        let rest := runPred tgt args kwargs pred jit clock next op fuel
          (i + 1) (next s).2
        { result := rest.result
          tries := rest.tries
          events := ⟨HandlerKind.backoff,
            ⟨tgt, args, kwargs, i + 1, clock i, some (jit (next s).1),
              some v, none⟩⟩ :: rest.events }
      else
        { result := CallResult.value v
          tries := i + 1
          events := [⟨HandlerKind.success,
            ⟨tgt, args, kwargs, i + 1, clock i, none, some v, none⟩⟩] }

/-- Modelled from the spec: one call of an operation wrapped by
`on_exception`.  A fresh wait sequence is started from the schedule's
initial state at the beginning of the call; `maxTries` (≥ 1) is the
configured `max_tries` stop condition, so `maxTries - 1` backoffs remain
before the first attempt. -/
def on_exception_call {A K E V σ : Type} (tgt : String) (args : A)
    (kwargs : K) (retryable giveup : E → Bool) (jit : ℚ → ℚ)
    (clock : Nat → ℚ) (sched : WaitSchedule σ) (maxTries : Nat)
    (op : Nat → AttemptOutcome E V) : CallTrace A K E V :=
  runExc tgt args kwargs retryable giveup jit clock sched.next op
    (maxTries - 1) 0 sched.init

/-- Modelled from the spec: one call of an operation wrapped by
`on_predicate`.  A fresh wait sequence is started from the schedule's
initial state at the beginning of the call; `maxTries` (≥ 1) is the
configured `max_tries` stop condition. -/
def on_predicate_call {A K E V σ : Type} (tgt : String) (args : A)
    (kwargs : K) (pred : V → Bool) (jit : ℚ → ℚ) (clock : Nat → ℚ)
    (sched : WaitSchedule σ) (maxTries : Nat)
    (op : Nat → AttemptOutcome E V) : CallTrace A K E V :=
  runPred tgt args kwargs pred jit clock sched.next op (maxTries - 1) 0
    sched.init

/-- Modelled from the spec and from `_MaybeLogger` in `backoff/_typing.py`:
the `logger` option is either a string identifier, an already-constructed
logger object, an already-constructed logger adapter, or the disabled
sentinel (`None`). -/
inductive MaybeLogger : Type
  | byName : String → MaybeLogger
  | loggerObj : Nat → MaybeLogger
  | adapterObj : Nat → MaybeLogger
  | disabled : MaybeLogger
deriving DecidableEq

/-- Whether the logger setting enables diagnostic emission. -/
def loggerEnabled : MaybeLogger → Bool
  | MaybeLogger.disabled => false
  | _ => true

/-- Modelled from the spec: built-in diagnostic emission, implemented as
messages derived from the `on_backoff` and `on_giveup` transitions when a
logger is configured, and nothing when it is disabled. -/
def diagnosticLogs {A K E V : Type} (l : MaybeLogger)
    (events : List (HandlerEvent A K E V)) : List String :=
  if loggerEnabled l then
    events.filterMap (fun ev =>
      match ev.kind with
      | HandlerKind.backoff => some "backing off"
      | HandlerKind.giveup => some "giving up"
      | HandlerKind.success => none)
  else []

/-- Modelled from the spec: an `on_exception`-wrapped call together with
the diagnostics its logger setting emits. -/
def on_exception_logged {A K E V σ : Type} (l : MaybeLogger) (tgt : String)
    (args : A) (kwargs : K) (retryable giveup : E → Bool) (jit : ℚ → ℚ)
    (clock : Nat → ℚ) (sched : WaitSchedule σ) (maxTries : Nat)
    (op : Nat → AttemptOutcome E V) : CallTrace A K E V × List String :=
  let t := on_exception_call tgt args kwargs retryable giveup jit clock
    sched maxTries op
  (t, diagnosticLogs l t.events)

/-- Modelled from the spec: an `on_predicate`-wrapped call together with
the diagnostics its logger setting emits. -/
def on_predicate_logged {A K E V σ : Type} (l : MaybeLogger) (tgt : String)
    (args : A) (kwargs : K) (pred : V → Bool) (jit : ℚ → ℚ)
    (clock : Nat → ℚ) (sched : WaitSchedule σ) (maxTries : Nat)
    (op : Nat → AttemptOutcome E V) : CallTrace A K E V × List String :=
  let t := on_predicate_call tgt args kwargs pred jit clock sched maxTries
    op
  (t, diagnosticLogs l t.events)

/-- Test operation: raises error `j` on attempts 0 and 1, returns `7` from
attempt 2 on. -/
def opFailTwice : Nat → AttemptOutcome Nat Nat := fun j =>
  if j < 2 then AttemptOutcome.raises j else AttemptOutcome.returns 7

/-- Test operation: raises error `j` on every attempt `j`. -/
def opAlwaysRaise : Nat → AttemptOutcome Nat Nat := fun j =>
  AttemptOutcome.raises j

/-- Test operation: returns value `j` on every attempt `j`. -/
def opAlwaysReturn : Nat → AttemptOutcome Nat Nat := fun j =>
  AttemptOutcome.returns j

/-- Test operation: returns values 0 and 1 on the first two attempts, then
raises error `99`. -/
def opFailTwiceValues : Nat → AttemptOutcome Nat Nat := fun j =>
  if j < 2 then AttemptOutcome.returns j else AttemptOutcome.raises 99

/-- Test operation: always raises error `5`. -/
def opRaiseOther : Nat → AttemptOutcome Nat Nat := fun _ =>
  AttemptOutcome.raises 5

/-- Test clock: no time elapses. -/
def zeroClock : Nat → ℚ := fun _ => 0

/-- Concrete handler event used to exercise the record-shape theorem. -/
def sampleGiveupEvent : HandlerEvent Unit Unit Nat Nat :=
  ⟨HandlerKind.giveup, ⟨"target", (), (), 1, 0, none, none, some 0⟩⟩

theorem countKind_nil {A K E V : Type} (k : HandlerKind) :
    countKind (A := A) (K := K) (E := E) (V := V) k [] = 0 := rfl

theorem countKind_cons {A K E V : Type} (k : HandlerKind)
    (ev : HandlerEvent A K E V) (rest : List (HandlerEvent A K E V)) :
    countKind k (ev :: rest) =
      (if ev.kind = k then 1 else 0) + countKind k rest := rfl

theorem runExc_eventualSuccess {A K E V σ : Type} (tgt : String) (args : A)
    (kwargs : K) (retryable giveup : E → Bool) (jit : ℚ → ℚ)
    (clock : Nat → ℚ) (next : σ → ℚ × σ) (op : Nat → AttemptOutcome E V)
    (errs : Nat → E) (v : V) :
    ∀ (k fuel i : Nat) (s : σ), k ≤ fuel →
    (∀ j, j < k → op (i + j) = AttemptOutcome.raises (errs (i + j)) ∧
      retryable (errs (i + j)) = true ∧ giveup (errs (i + j)) = false) →
    op (i + k) = AttemptOutcome.returns v →
    (runExc tgt args kwargs retryable giveup jit clock next op fuel i
        s).result = CallResult.value v ∧
    (runExc tgt args kwargs retryable giveup jit clock next op fuel i
        s).tries = i + k + 1 ∧
    countKind HandlerKind.success
      (runExc tgt args kwargs retryable giveup jit clock next op fuel i
        s).events = 1 ∧
    countKind HandlerKind.backoff
      (runExc tgt args kwargs retryable giveup jit clock next op fuel i
        s).events = k ∧
    countKind HandlerKind.giveup
      (runExc tgt args kwargs retryable giveup jit clock next op fuel i
        s).events = 0 := by
  intro k
  induction k with
  | zero =>
    intro fuel i s _ _ hsucc
    rw [Nat.add_zero] at hsucc
    cases fuel <;>
      simp [runExc, hsucc, countKind_cons, countKind_nil]
  | succ k ih =>
    intro fuel i s hle hfail hsucc
    obtain ⟨f, rfl⟩ : ∃ f, fuel = f + 1 := ⟨fuel - 1, by omega⟩
    obtain ⟨h0, hr0, hg0⟩ := hfail 0 (Nat.succ_pos k)
    rw [Nat.add_zero] at h0 hr0 hg0
    have hfail' : ∀ j, j < k →
        op (i + 1 + j) = AttemptOutcome.raises (errs (i + 1 + j)) ∧
        retryable (errs (i + 1 + j)) = true ∧
        giveup (errs (i + 1 + j)) = false := by
      intro j hj
      have := hfail (j + 1) (by omega)
      rwa [show i + (j + 1) = i + 1 + j by omega] at this
    have hsucc' : op (i + 1 + k) = AttemptOutcome.returns v := by
      rwa [show i + (k + 1) = i + 1 + k by omega] at hsucc
    have := ih f (i + 1) (next s).2 (by omega) hfail' hsucc'
    simp only [runExc, h0, hr0, hg0, if_true, if_false, Bool.false_eq_true,
      countKind_cons]
    refine ⟨this.1, ?_, ?_, ?_, ?_⟩
    · rw [this.2.1]; omega
    · simpa using this.2.2.1
    · have h := this.2.2.2.1
      simp [h, Nat.add_comm]
    · simpa using this.2.2.2.2

theorem runExc_allRaise {A K E V σ : Type} (tgt : String) (args : A)
    (kwargs : K) (retryable giveup : E → Bool) (jit : ℚ → ℚ)
    (clock : Nat → ℚ) (next : σ → ℚ × σ) (op : Nat → AttemptOutcome E V)
    (errs : Nat → E) :
    ∀ (fuel i : Nat) (s : σ),
    (∀ j, op j = AttemptOutcome.raises (errs j) ∧
      retryable (errs j) = true ∧ giveup (errs j) = false) →
    (runExc tgt args kwargs retryable giveup jit clock next op fuel i
        s).result = CallResult.raised (errs (i + fuel)) ∧
    (runExc tgt args kwargs retryable giveup jit clock next op fuel i
        s).tries = i + fuel + 1 ∧
    countKind HandlerKind.success
      (runExc tgt args kwargs retryable giveup jit clock next op fuel i
        s).events = 0 ∧
    countKind HandlerKind.backoff
      (runExc tgt args kwargs retryable giveup jit clock next op fuel i
        s).events = fuel ∧
    countKind HandlerKind.giveup
      (runExc tgt args kwargs retryable giveup jit clock next op fuel i
        s).events = 1 := by
  intro fuel
  induction fuel with
  | zero =>
    intro i s hall
    obtain ⟨h0, hr0, _⟩ := hall i
    simp [runExc, h0, hr0, countKind_cons, countKind_nil]
  | succ f ih =>
    intro i s hall
    obtain ⟨h0, hr0, hg0⟩ := hall i
    have := ih (i + 1) (next s).2 hall
    simp only [runExc, h0, hr0, hg0, if_true, if_false, Bool.false_eq_true,
      countKind_cons]
    refine ⟨?_, ?_, ?_, ?_, ?_⟩
    · rw [this.1, show i + 1 + f = i + (f + 1) by omega]
    · rw [this.2.1]; omega
    · simpa using this.2.2.1
    · have h := this.2.2.2.1
      simp [h, Nat.add_comm]
    · simpa using this.2.2.2.2

theorem runPred_firstRaise {A K E V σ : Type} (tgt : String) (args : A)
    (kwargs : K) (pred : V → Bool) (jit : ℚ → ℚ) (clock : Nat → ℚ)
    (next : σ → ℚ × σ) (op : Nat → AttemptOutcome E V) (vals : Nat → V)
    (e : E) :
    ∀ (n fuel i : Nat) (s : σ), n ≤ fuel →
    (∀ j, j < n → op (i + j) = AttemptOutcome.returns (vals (i + j)) ∧
      pred (vals (i + j)) = true) →
    op (i + n) = AttemptOutcome.raises e →
    (runPred tgt args kwargs pred jit clock next op fuel i s).result =
      CallResult.raised e ∧
    (runPred tgt args kwargs pred jit clock next op fuel i s).tries =
      i + n + 1 ∧
    countKind HandlerKind.success
      (runPred tgt args kwargs pred jit clock next op fuel i s).events
      = 0 ∧
    countKind HandlerKind.backoff
      (runPred tgt args kwargs pred jit clock next op fuel i s).events
      = n ∧
    countKind HandlerKind.giveup
      (runPred tgt args kwargs pred jit clock next op fuel i s).events
      = 0 := by
  intro n
  induction n with
  | zero =>
    intro fuel i s _ _ hraise
    rw [Nat.add_zero] at hraise
    cases fuel <;> simp [runPred, hraise, countKind_nil]
  | succ n ih =>
    intro fuel i s hle hret hraise
    obtain ⟨f, rfl⟩ : ∃ f, fuel = f + 1 := ⟨fuel - 1, by omega⟩
    obtain ⟨h0, hp0⟩ := hret 0 (Nat.succ_pos n)
    rw [Nat.add_zero] at h0 hp0
    have hret' : ∀ j, j < n →
        op (i + 1 + j) = AttemptOutcome.returns (vals (i + 1 + j)) ∧
        pred (vals (i + 1 + j)) = true := by
      intro j hj
      have := hret (j + 1) (by omega)
      rwa [show i + (j + 1) = i + 1 + j by omega] at this
    have hraise' : op (i + 1 + n) = AttemptOutcome.raises e := by
      rwa [show i + (n + 1) = i + 1 + n by omega] at hraise
    have := ih f (i + 1) (next s).2 (by omega) hret' hraise'
    simp only [runPred, h0, hp0, if_true, countKind_cons]
    refine ⟨this.1, ?_, ?_, ?_, ?_⟩
    · rw [this.2.1]; omega
    · simpa using this.2.2.1
    · have h := this.2.2.2.1
      simp [h, Nat.add_comm]
    · simpa using this.2.2.2.2

theorem runPred_allUnsat {A K E V σ : Type} (tgt : String) (args : A)
    (kwargs : K) (pred : V → Bool) (jit : ℚ → ℚ) (clock : Nat → ℚ)
    (next : σ → ℚ × σ) (op : Nat → AttemptOutcome E V) (vals : Nat → V) :
    ∀ (fuel i : Nat) (s : σ),
    (∀ j, op j = AttemptOutcome.returns (vals j) ∧
      pred (vals j) = true) →
    (runPred tgt args kwargs pred jit clock next op fuel i s).result =
      CallResult.value (vals (i + fuel)) ∧
    (runPred tgt args kwargs pred jit clock next op fuel i s).tries =
      i + fuel + 1 ∧
    countKind HandlerKind.success
      (runPred tgt args kwargs pred jit clock next op fuel i s).events
      = 0 ∧
    countKind HandlerKind.backoff
      (runPred tgt args kwargs pred jit clock next op fuel i s).events
      = fuel ∧
    countKind HandlerKind.giveup
      (runPred tgt args kwargs pred jit clock next op fuel i s).events
      = 1 := by
  intro fuel
  induction fuel with
  | zero =>
    intro i s hall
    obtain ⟨h0, hp0⟩ := hall i
    simp [runPred, h0, hp0, countKind_cons, countKind_nil]
  | succ f ih =>
    intro i s hall
    obtain ⟨h0, hp0⟩ := hall i
    have := ih (i + 1) (next s).2 hall
    simp only [runPred, h0, hp0, if_true, countKind_cons]
    refine ⟨?_, ?_, ?_, ?_, ?_⟩
    · rw [this.1, show i + 1 + f = i + (f + 1) by omega]
    · rw [this.2.1]; omega
    · simpa using this.2.2.1
    · have h := this.2.2.2.1
      simp [h, Nat.add_comm]
    · simpa using this.2.2.2.2

theorem runExc_backoffWaits {A K E V σ : Type} (tgt : String) (args : A)
    (kwargs : K) (retryable giveup : E → Bool) (jit : ℚ → ℚ)
    (clock : Nat → ℚ) (next : σ → ℚ × σ) (op : Nat → AttemptOutcome E V) :
    ∀ (fuel i : Nat) (s : σ),
    backoffWaits
        (runExc tgt args kwargs retryable giveup jit clock next op fuel i
          s).events =
      (List.range (backoffWaits
        (runExc tgt args kwargs retryable giveup jit clock next op fuel i
          s).events).length).map (fun j => jit (streamVal next s j)) := by
  intro fuel
  induction fuel with
  | zero =>
    intro i s
    cases hop : op i with
    | returns v => simp [runExc, hop, backoffWaits]
    | raises e =>
      cases hr : retryable e <;> simp [runExc, hop, hr, backoffWaits]
  | succ f ih =>
    intro i s
    cases hop : op i with
    | returns v => simp [runExc, hop, backoffWaits]
    | raises e =>
      cases hr : retryable e with
      | false => simp [runExc, hop, hr, backoffWaits]
      | true =>
        cases hg : giveup e with
        | true => simp [runExc, hop, hr, hg, backoffWaits]
        | false =>
          have hih := ih (i + 1) (next s).2
          simp only [runExc, hop, hr, hg, if_true, if_false,
            Bool.false_eq_true, backoffWaits]
          rw [List.length_cons, List.range_succ_eq_map, List.map_cons,
            List.map_map]
          congr 1
          rw [hih]
          simp only [List.length_map, List.length_range]
          apply List.map_congr_left
          intro j _
          simp [Function.comp, streamVal_shift]

theorem runExc_events_shape {A K E V σ : Type} (tgt : String) (args : A)
    (kwargs : K) (retryable giveup : E → Bool) (jit : ℚ → ℚ)
    (clock : Nat → ℚ) (next : σ → ℚ × σ) (op : Nat → AttemptOutcome E V) :
    ∀ (fuel i : Nat) (s : σ),
    ∀ ev ∈ (runExc tgt args kwargs retryable giveup jit clock next op fuel
      i s).events,
    ev.details.target = tgt ∧ ev.details.args = args ∧
    ev.details.kwargs = kwargs ∧ 1 ≤ ev.details.tries ∧
    ev.details.value = none ∧
    (ev.details.wait.isSome = true ↔ ev.kind = HandlerKind.backoff) ∧
    (ev.details.exception.isSome = true ↔
      ev.kind ≠ HandlerKind.success) := by
  intro fuel
  induction fuel with
  | zero =>
    intro i s ev hev
    cases hop : op i with
    | returns v =>
      simp only [runExc, hop, List.mem_singleton] at hev
      subst hev
      simp
    | raises e =>
      cases hr : retryable e with
      | true =>
        simp only [runExc, hop, hr, if_true, List.mem_singleton] at hev
        subst hev
        simp
      | false =>
        simp only [runExc, hop, hr, Bool.false_eq_true, if_false,
          List.not_mem_nil] at hev
  | succ f ih =>
    intro i s ev hev
    cases hop : op i with
    | returns v =>
      simp only [runExc, hop, List.mem_singleton] at hev
      subst hev
      simp
    | raises e =>
      cases hr : retryable e with
      | false =>
        simp only [runExc, hop, hr, Bool.false_eq_true, if_false,
          List.not_mem_nil] at hev
      | true =>
        cases hg : giveup e with
        | true =>
          simp only [runExc, hop, hr, hg, if_true, List.mem_singleton]
            at hev
          subst hev
          simp
        | false =>
          simp only [runExc, hop, hr, hg, if_true, if_false,
            Bool.false_eq_true, List.mem_cons] at hev
          rcases hev with hev | hev
          · subst hev
            simp
          · exact ih (i + 1) (next s).2 ev hev

theorem runPred_events_shape {A K E V σ : Type} (tgt : String) (args : A)
    (kwargs : K) (pred : V → Bool) (jit : ℚ → ℚ) (clock : Nat → ℚ)
    (next : σ → ℚ × σ) (op : Nat → AttemptOutcome E V) :
    ∀ (fuel i : Nat) (s : σ),
    ∀ ev ∈ (runPred tgt args kwargs pred jit clock next op fuel i
      s).events,
    ev.details.target = tgt ∧ ev.details.args = args ∧
    ev.details.kwargs = kwargs ∧ 1 ≤ ev.details.tries ∧
    ev.details.exception = none ∧ ev.details.value.isSome = true ∧
    (ev.details.wait.isSome = true ↔ ev.kind = HandlerKind.backoff) := by
  intro fuel
  induction fuel with
  | zero =>
    intro i s ev hev
    cases hop : op i with
    | raises e =>
      simp only [runPred, hop, List.not_mem_nil] at hev
    | returns v =>
      cases hp : pred v with
      | true =>
        simp only [runPred, hop, hp, if_true, List.mem_singleton] at hev
        subst hev
        simp
      | false =>
        simp only [runPred, hop, hp, Bool.false_eq_true, if_false,
          List.mem_singleton] at hev
        subst hev
        simp
  | succ f ih =>
    intro i s ev hev
    cases hop : op i with
    | raises e =>
      simp only [runPred, hop, List.not_mem_nil] at hev
    | returns v =>
      cases hp : pred v with
      | false =>
        simp only [runPred, hop, hp, Bool.false_eq_true, if_false,
          List.mem_singleton] at hev
        subst hev
        simp
      | true =>
        simp only [runPred, hop, hp, if_true, List.mem_cons] at hev
        rcases hev with hev | hev
        · subst hev
          simp
        · exact ih (i + 1) (next s).2 ev hev

theorem constant_valueAt (interval : ℚ) (n : Nat) :
    (constant interval).valueAt n = interval := rfl

theorem expoSchedule_next_none (base factor a : ℚ) :
    (expoSchedule base factor none).next a = (a, a * factor) := rfl

theorem expoSchedule_next_some (base factor m a : ℚ) :
    (expoSchedule base factor (some m)).next a =
      if a < m then (a, a * factor) else (m, a) := rfl

theorem fiboSchedule_next_none (p : ℚ × ℚ) :
    (fiboSchedule none).next p = (p.1, (p.2, p.1 + p.2)) := rfl

theorem fiboSchedule_next_some (m : ℚ) (p : ℚ × ℚ) :
    (fiboSchedule (some m)).next p =
      if p.1 < m then (p.1, (p.2, p.1 + p.2)) else (m, p) := rfl

theorem expoSchedule_state_nonneg (base factor : ℚ) (maxValue : Option ℚ)
    (hb : 0 ≤ base) (hf : 0 ≤ factor) :
    ∀ n, 0 ≤ iterState (expoSchedule base factor maxValue).next base n := by
  intro n
  induction n with
  | zero => exact hb
  | succ n ih =>
    show (0 : ℚ) ≤ ((expoSchedule base factor maxValue).next
      (iterState (expoSchedule base factor maxValue).next base n)).2
    cases maxValue with
    | none =>
      rw [expoSchedule_next_none]
      exact mul_nonneg ih hf
    | some m =>
      rw [expoSchedule_next_some]
      by_cases h : iterState (expoSchedule base factor (some m)).next
          base n < m
      · rw [if_pos h]
        exact mul_nonneg ih hf
      · rw [if_neg h]
        exact ih

theorem expoSchedule_valueAt_nonneg (base factor : ℚ)
    (maxValue : Option ℚ) (hb : 0 ≤ base) (hf : 0 ≤ factor)
    (hm : ∀ x, maxValue = some x → 0 ≤ x) :
    ∀ n, 0 ≤ (expoSchedule base factor maxValue).valueAt n := by
  intro n
  have hst := expoSchedule_state_nonneg base factor maxValue hb hf n
  show (0 : ℚ) ≤ ((expoSchedule base factor maxValue).next
    (iterState (expoSchedule base factor maxValue).next base n)).1
  cases maxValue with
  | none =>
    rw [expoSchedule_next_none]
    exact hst
  | some m =>
    rw [expoSchedule_next_some]
    by_cases h : iterState (expoSchedule base factor (some m)).next
        base n < m
    · rw [if_pos h]
      exact hst
    · rw [if_neg h]
      exact hm m rfl

theorem fiboSchedule_state_nonneg (maxValue : Option ℚ) :
    ∀ n, 0 ≤ (iterState (fiboSchedule maxValue).next (1, 1) n).1 ∧
      0 ≤ (iterState (fiboSchedule maxValue).next (1, 1) n).2 := by
  intro n
  induction n with
  | zero => refine ⟨?_, ?_⟩ <;> simp [iterState]
  | succ n ih =>
    obtain ⟨h1, h2⟩ := ih
    show (0 : ℚ) ≤ (((fiboSchedule maxValue).next
        (iterState (fiboSchedule maxValue).next (1, 1) n)).2).1 ∧
      (0 : ℚ) ≤ (((fiboSchedule maxValue).next
        (iterState (fiboSchedule maxValue).next (1, 1) n)).2).2
    cases maxValue with
    | none =>
      rw [fiboSchedule_next_none]
      exact ⟨h2, add_nonneg h1 h2⟩
    | some m =>
      rw [fiboSchedule_next_some]
      by_cases h : (iterState (fiboSchedule (some m)).next (1, 1) n).1 < m
      · rw [if_pos h]
        exact ⟨h2, add_nonneg h1 h2⟩
      · rw [if_neg h]
        exact ⟨h1, h2⟩

theorem fiboSchedule_valueAt_nonneg (maxValue : Option ℚ)
    (hm : ∀ x, maxValue = some x → 0 ≤ x) :
    ∀ n, 0 ≤ (fiboSchedule maxValue).valueAt n := by
  intro n
  obtain ⟨h1, _⟩ := fiboSchedule_state_nonneg maxValue n
  show (0 : ℚ) ≤ ((fiboSchedule maxValue).next
    (iterState (fiboSchedule maxValue).next (1, 1) n)).1
  cases maxValue with
  | none =>
    rw [fiboSchedule_next_none]
    exact h1
  | some m =>
    rw [fiboSchedule_next_some]
    by_cases h : (iterState (fiboSchedule (some m)).next (1, 1) n).1 < m
    · rw [if_pos h]
      exact h1
    · rw [if_neg h]
      exact hm m rfl

theorem decay_valueAt_nonneg (initialValue decayFactor floorValue : ℚ)
    (hfl : 0 ≤ floorValue) :
    ∀ n, 0 ≤ (decay initialValue decayFactor floorValue).valueAt n := by
  intro n
  show (0 : ℚ) ≤ (max floorValue
    (iterState (decay initialValue decayFactor floorValue).next
      initialValue n))
  exact le_trans hfl (le_max_left _ _)

theorem runtime_valueAt_nonneg (vs : Nat → ℚ) (hvs : ∀ j, 0 ≤ vs j) :
    ∀ n, 0 ≤ (runtime vs).valueAt n := by
  intro n
  exact hvs _

theorem expoSchedule_capped_le (base factor m : ℚ) :
    ∀ n, (expoSchedule base factor (some m)).valueAt n ≤ m := by
  intro n
  show ((expoSchedule base factor (some m)).next
    (iterState (expoSchedule base factor (some m)).next base n)).1 ≤ m
  rw [expoSchedule_next_some]
  by_cases h : iterState (expoSchedule base factor (some m)).next base n < m
  · rw [if_pos h]
    exact le_of_lt h
  · rw [if_neg h]

theorem expoSchedule_capped_stable (base factor m : ℚ) (n : Nat)
    (hn : (expoSchedule base factor (some m)).valueAt n = m) :
    ∀ k, (expoSchedule base factor (some m)).valueAt (n + k) = m := by
  have hge : ¬ iterState (expoSchedule base factor (some m)).next base n
      < m := by
    intro h
    have hv : (expoSchedule base factor (some m)).valueAt n =
        iterState (expoSchedule base factor (some m)).next base n := by
      show ((expoSchedule base factor (some m)).next
        (iterState (expoSchedule base factor (some m)).next base n)).1 = _
      rw [expoSchedule_next_some, if_pos h]
    rw [hv] at hn
    rw [hn] at h
    exact lt_irrefl m h
  have hstate : ∀ k,
      iterState (expoSchedule base factor (some m)).next base (n + k) =
      iterState (expoSchedule base factor (some m)).next base n := by
    intro k
    induction k with
    | zero => rfl
    | succ k ih =>
      show ((expoSchedule base factor (some m)).next
        (iterState (expoSchedule base factor (some m)).next base
          (n + k))).2 = _
      rw [ih, expoSchedule_next_some, if_neg hge]
  intro k
  show ((expoSchedule base factor (some m)).next
    (iterState (expoSchedule base factor (some m)).next base (n + k))).1 = m
  rw [hstate k, expoSchedule_next_some, if_neg hge]

theorem fiboSchedule_capped_le (m : ℚ) :
    ∀ n, (fiboSchedule (some m)).valueAt n ≤ m := by
  intro n
  show ((fiboSchedule (some m)).next
    (iterState (fiboSchedule (some m)).next (1, 1) n)).1 ≤ m
  rw [fiboSchedule_next_some]
  by_cases h : (iterState (fiboSchedule (some m)).next (1, 1) n).1 < m
  · rw [if_pos h]
    exact le_of_lt h
  · rw [if_neg h]

theorem fiboSchedule_capped_stable (m : ℚ) (n : Nat)
    (hn : (fiboSchedule (some m)).valueAt n = m) :
    ∀ k, (fiboSchedule (some m)).valueAt (n + k) = m := by
  have hge : ¬ (iterState (fiboSchedule (some m)).next (1, 1) n).1 < m := by
    intro h
    have hv : (fiboSchedule (some m)).valueAt n =
        (iterState (fiboSchedule (some m)).next (1, 1) n).1 := by
      show ((fiboSchedule (some m)).next
        (iterState (fiboSchedule (some m)).next (1, 1) n)).1 = _
      rw [fiboSchedule_next_some, if_pos h]
    rw [hv] at hn
    rw [hn] at h
    exact lt_irrefl m h
  have hstate : ∀ k,
      iterState (fiboSchedule (some m)).next (1, 1) (n + k) =
      iterState (fiboSchedule (some m)).next (1, 1) n := by
    intro k
    induction k with
    | zero => rfl
    | succ k ih =>
      show ((fiboSchedule (some m)).next
        (iterState (fiboSchedule (some m)).next (1, 1) (n + k))).2 = _
      rw [ih, fiboSchedule_next_some, if_neg hge]
  intro k
  show ((fiboSchedule (some m)).next
    (iterState (fiboSchedule (some m)).next (1, 1) (n + k))).1 = m
  rw [hstate k, fiboSchedule_next_some, if_neg hge]

/-- C1: in exception mode, for an operation that raises a configured
retryable error exactly `k` times and then returns `v`, under a
configuration with `max_tries ≥ k + 1` the wrapped call returns `v`, the
`on_backoff` handlers fire exactly `k` times and the `on_success` handlers
fire exactly once (and `on_giveup` never fires). -/
theorem C1_exception_eventual_success {A K E V σ : Type} (tgt : String)
    (args : A) (kwargs : K) (retryable giveup : E → Bool) (jit : ℚ → ℚ)
    (clock : Nat → ℚ) (sched : WaitSchedule σ) (maxTries k : Nat)
    (op : Nat → AttemptOutcome E V) (errs : Nat → E) (v : V)
    (hfail : ∀ j, j < k → op j = AttemptOutcome.raises (errs j) ∧
      retryable (errs j) = true ∧ giveup (errs j) = false)
    (hsucc : op k = AttemptOutcome.returns v)
    (hmax : k + 1 ≤ maxTries) :
    (on_exception_call tgt args kwargs retryable giveup jit clock sched
      maxTries op).result = CallResult.value v ∧
    countKind HandlerKind.backoff
      (on_exception_call tgt args kwargs retryable giveup jit clock sched
        maxTries op).events = k ∧
    countKind HandlerKind.success
      (on_exception_call tgt args kwargs retryable giveup jit clock sched
        maxTries op).events = 1 ∧
    countKind HandlerKind.giveup
      (on_exception_call tgt args kwargs retryable giveup jit clock sched
        maxTries op).events = 0 := by
  have h := runExc_eventualSuccess tgt args kwargs retryable giveup jit
    clock sched.next op errs v k (maxTries - 1) 0 sched.init (by omega)
    (by intro j hj; simpa using hfail j hj) (by simpa using hsucc)
  exact ⟨h.1, h.2.2.2.1, h.2.2.1, h.2.2.2.2⟩

theorem C1_witness :
    (∀ j, j < 2 → opFailTwice j = AttemptOutcome.raises j ∧
      (fun _ : Nat => true) j = true ∧ (fun _ : Nat => false) j = false) ∧
    opFailTwice 2 = AttemptOutcome.returns 7 ∧ 2 + 1 ≤ 3 ∧
    ((on_exception_call "target" () () (fun _ : Nat => true)
      (fun _ : Nat => false) id zeroClock (constant 1) 3
      opFailTwice).result = CallResult.value 7 ∧
    countKind HandlerKind.backoff
      (on_exception_call "target" () () (fun _ : Nat => true)
        (fun _ : Nat => false) id zeroClock (constant 1) 3
        opFailTwice).events = 2 ∧
    countKind HandlerKind.success
      (on_exception_call "target" () () (fun _ : Nat => true)
        (fun _ : Nat => false) id zeroClock (constant 1) 3
        opFailTwice).events = 1 ∧
    countKind HandlerKind.giveup
      (on_exception_call "target" () () (fun _ : Nat => true)
        (fun _ : Nat => false) id zeroClock (constant 1) 3
        opFailTwice).events = 0) :=
  ⟨by decide, by decide, by decide,
    C1_exception_eventual_success "target" () () (fun _ => true)
      (fun _ => false) id zeroClock (constant 1) 3 2 opFailTwice
      (fun j => j) 7 (by decide) (by decide) (by decide)⟩

/-- C2: in exception mode, with `max_tries = k ≥ 1` and an operation that
always raises a retryable error, the wrapped call re-raises the error
caught at the last attempt — the very error object, so its type and message
are unchanged — after exactly `k` attempts, and `on_giveup` fires exactly
once. -/
theorem C2_exception_giveup {A K E V σ : Type} (tgt : String) (args : A)
    (kwargs : K) (retryable giveup : E → Bool) (jit : ℚ → ℚ)
    (clock : Nat → ℚ) (sched : WaitSchedule σ) (maxTries : Nat)
    (op : Nat → AttemptOutcome E V) (errs : Nat → E)
    (hk : 1 ≤ maxTries)
    (hall : ∀ j, op j = AttemptOutcome.raises (errs j) ∧
      retryable (errs j) = true ∧ giveup (errs j) = false) :
    (on_exception_call tgt args kwargs retryable giveup jit clock sched
      maxTries op).result = CallResult.raised (errs (maxTries - 1)) ∧
    (on_exception_call tgt args kwargs retryable giveup jit clock sched
      maxTries op).tries = maxTries ∧
    countKind HandlerKind.giveup
      (on_exception_call tgt args kwargs retryable giveup jit clock sched
        maxTries op).events = 1 ∧
    countKind HandlerKind.backoff
      (on_exception_call tgt args kwargs retryable giveup jit clock sched
        maxTries op).events = maxTries - 1 ∧
    countKind HandlerKind.success
      (on_exception_call tgt args kwargs retryable giveup jit clock sched
        maxTries op).events = 0 := by
  unfold on_exception_call
  have h := runExc_allRaise tgt args kwargs retryable giveup jit clock
    sched.next op errs (maxTries - 1) 0 sched.init hall
  refine ⟨?_, ?_, h.2.2.2.2, h.2.2.2.1, h.2.2.1⟩
  · have := h.1
    rwa [Nat.zero_add] at this
  · have := h.2.1
    rw [Nat.zero_add] at this
    rw [this]
    omega

theorem C2_witness :
    1 ≤ 3 ∧
    (∀ j, opAlwaysRaise j = AttemptOutcome.raises j ∧
      (fun _ : Nat => true) j = true ∧ (fun _ : Nat => false) j = false) ∧
    ((on_exception_call "target" () () (fun _ : Nat => true)
      (fun _ : Nat => false) id zeroClock (constant 1) 3
      opAlwaysRaise).result = CallResult.raised 2 ∧
    (on_exception_call "target" () () (fun _ : Nat => true)
      (fun _ : Nat => false) id zeroClock (constant 1) 3
      opAlwaysRaise).tries = 3 ∧
    countKind HandlerKind.giveup
      (on_exception_call "target" () () (fun _ : Nat => true)
        (fun _ : Nat => false) id zeroClock (constant 1) 3
        opAlwaysRaise).events = 1 ∧
    countKind HandlerKind.backoff
      (on_exception_call "target" () () (fun _ : Nat => true)
        (fun _ : Nat => false) id zeroClock (constant 1) 3
        opAlwaysRaise).events = 3 - 1 ∧
    countKind HandlerKind.success
      (on_exception_call "target" () () (fun _ : Nat => true)
        (fun _ : Nat => false) id zeroClock (constant 1) 3
        opAlwaysRaise).events = 0) :=
  ⟨by decide, fun j => ⟨rfl, rfl, rfl⟩,
    C2_exception_giveup "target" () () (fun _ => true) (fun _ => false) id
      zeroClock (constant 1) 3 opAlwaysRaise (fun j => j) (by decide)
      (fun j => ⟨rfl, rfl, rfl⟩)⟩

/-- C3: in predicate mode, a raised error on any attempt propagates to the
caller at once, with no further retry and no handler fired for it; and when
the stop condition is met before a satisfactory value appears, the call
returns the last unsatisfactory value — no error is fabricated — with
`on_giveup` fired exactly once. -/
theorem C3_predicate_error_and_exhaustion {A K E V σ : Type} (tgt : String)
    (args : A) (kwargs : K) (pred : V → Bool) (jit : ℚ → ℚ)
    (clock : Nat → ℚ) (sched : WaitSchedule σ) (maxTries n : Nat)
    (op : Nat → AttemptOutcome E V) (vals : Nat → V) (e : E) :
    ((n + 1 ≤ maxTries) →
      (∀ j, j < n → op j = AttemptOutcome.returns (vals j) ∧
        pred (vals j) = true) →
      op n = AttemptOutcome.raises e →
      (on_predicate_call tgt args kwargs pred jit clock sched maxTries
        op).result = CallResult.raised e ∧
      (on_predicate_call tgt args kwargs pred jit clock sched maxTries
        op).tries = n + 1 ∧
      countKind HandlerKind.giveup
        (on_predicate_call tgt args kwargs pred jit clock sched maxTries
          op).events = 0 ∧
      countKind HandlerKind.success
        (on_predicate_call tgt args kwargs pred jit clock sched maxTries
          op).events = 0) ∧
    ((1 ≤ maxTries) →
      (∀ j, op j = AttemptOutcome.returns (vals j) ∧
        pred (vals j) = true) →
      (on_predicate_call tgt args kwargs pred jit clock sched maxTries
        op).result = CallResult.value (vals (maxTries - 1)) ∧
      (on_predicate_call tgt args kwargs pred jit clock sched maxTries
        op).tries = maxTries ∧
      countKind HandlerKind.giveup
        (on_predicate_call tgt args kwargs pred jit clock sched maxTries
          op).events = 1) := by
  constructor
  · intro hn hret hraise
    have h := runPred_firstRaise tgt args kwargs pred jit clock sched.next
      op vals e n (maxTries - 1) 0 sched.init (by omega)
      (by intro j hj; simpa using hret j hj) (by simpa using hraise)
    exact ⟨h.1, by simpa using h.2.1, h.2.2.2.2, h.2.2.1⟩
  · intro hk hall
    unfold on_predicate_call
    have h := runPred_allUnsat tgt args kwargs pred jit clock sched.next
      op vals (maxTries - 1) 0 sched.init hall
    refine ⟨?_, ?_, h.2.2.2.2⟩
    · have := h.1
      rwa [Nat.zero_add] at this
    · have := h.2.1
      rw [Nat.zero_add] at this
      rw [this]
      omega

theorem C3_witness :
    (2 + 1 ≤ 5 ∧ (∀ j, j < 2 → opFailTwiceValues j =
      AttemptOutcome.returns j ∧ (fun v : Nat => v < 10) j = true) ∧
      opFailTwiceValues 2 = AttemptOutcome.raises 99 ∧
      ((on_predicate_call "target" () () (fun v : Nat => v < 10) id
        zeroClock (constant 1) 5 opFailTwiceValues).result =
          CallResult.raised 99 ∧
      (on_predicate_call "target" () () (fun v : Nat => v < 10) id
        zeroClock (constant 1) 5 opFailTwiceValues).tries = 2 + 1 ∧
      countKind HandlerKind.giveup
        (on_predicate_call "target" () () (fun v : Nat => v < 10) id
          zeroClock (constant 1) 5 opFailTwiceValues).events = 0 ∧
      countKind HandlerKind.success
        (on_predicate_call "target" () () (fun v : Nat => v < 10) id
          zeroClock (constant 1) 5 opFailTwiceValues).events = 0)) ∧
    (1 ≤ 4 ∧ (∀ j, opAlwaysReturn j = AttemptOutcome.returns j ∧
      (fun _ : Nat => true) j = true) ∧
      ((on_predicate_call "target" () () (fun _ : Nat => true) id
        zeroClock (constant 1) 4 opAlwaysReturn).result =
          CallResult.value (4 - 1) ∧
      (on_predicate_call "target" () () (fun _ : Nat => true) id
        zeroClock (constant 1) 4 opAlwaysReturn).tries = 4 ∧
      countKind HandlerKind.giveup
        (on_predicate_call "target" () () (fun _ : Nat => true) id
          zeroClock (constant 1) 4 opAlwaysReturn).events = 1)) :=
  ⟨⟨by decide, by decide, by decide,
    (C3_predicate_error_and_exhaustion "target" () ()
      (fun v : Nat => v < 10) id zeroClock (constant 1) 5 2
      opFailTwiceValues (fun j => j) 99).1 (by decide) (by decide)
      (by decide)⟩,
  ⟨by decide, fun j => ⟨rfl, rfl⟩,
    (C3_predicate_error_and_exhaustion "target" () () (fun _ : Nat => true)
      id zeroClock (constant 1) 4 4 opAlwaysReturn (fun j => j) 0).2
      (by decide) (fun j => ⟨rfl, rfl⟩)⟩⟩

/-- C5: in exception mode, when the first attempt raises an error that is
not of a configured retryable type, the wrapped call raises it immediately
after exactly one attempt and no handler of any kind fires. -/
theorem C5_nonretryable_short_circuit {A K E V σ : Type} (tgt : String)
    (args : A) (kwargs : K) (retryable giveup : E → Bool) (jit : ℚ → ℚ)
    (clock : Nat → ℚ) (sched : WaitSchedule σ) (maxTries : Nat)
    (op : Nat → AttemptOutcome E V) (e : E)
    (hop : op 0 = AttemptOutcome.raises e)
    (hr : retryable e = false) :
    (on_exception_call tgt args kwargs retryable giveup jit clock sched
      maxTries op).result = CallResult.raised e ∧
    (on_exception_call tgt args kwargs retryable giveup jit clock sched
      maxTries op).tries = 1 ∧
    (on_exception_call tgt args kwargs retryable giveup jit clock sched
      maxTries op).events = [] := by
  unfold on_exception_call
  cases h : maxTries - 1 <;>
    simp [runExc, hop, hr]

theorem C5_witness :
    opRaiseOther 0 = AttemptOutcome.raises 5 ∧
    (fun e : Nat => e == 0) 5 = false ∧
    ((on_exception_call "target" () () (fun e : Nat => e == 0)
      (fun _ : Nat => false) id zeroClock (constant 1) 6
      opRaiseOther).result = CallResult.raised 5 ∧
    (on_exception_call "target" () () (fun e : Nat => e == 0)
      (fun _ : Nat => false) id zeroClock (constant 1) 6
      opRaiseOther).tries = 1 ∧
    (on_exception_call "target" () () (fun e : Nat => e == 0)
      (fun _ : Nat => false) id zeroClock (constant 1) 6
      opRaiseOther).events = []) :=
  ⟨by decide, by decide,
    C5_nonretryable_short_circuit "target" () () (fun e => e == 0)
      (fun _ => false) id zeroClock (constant 1) 6 opRaiseOther 5
      (by decide) (by decide)⟩

/-- C4: every wait schedule (constant, exponential, fibonacci-like,
decaying, runtime) yields only non-negative values, given non-negative
configuration parameters; and for the capped exponential and
fibonacci-like schedules no yield ever exceeds the cap, and once a yield
equals the cap every subsequent yield equals the cap. -/
theorem C4_schedule_invariants (interval base factor m initialValue
    decayFactor floorValue : ℚ) (maxValue : Option ℚ) (vs : Nat → ℚ) :
    (0 ≤ interval → ∀ n, 0 ≤ (constant interval).valueAt n) ∧
    (0 ≤ base → 0 ≤ factor → (∀ x, maxValue = some x → 0 ≤ x) →
      ∀ n, 0 ≤ (expoSchedule base factor maxValue).valueAt n) ∧
    ((∀ x, maxValue = some x → 0 ≤ x) →
      ∀ n, 0 ≤ (fiboSchedule maxValue).valueAt n) ∧
    (0 ≤ floorValue →
      ∀ n, 0 ≤ (decay initialValue decayFactor floorValue).valueAt n) ∧
    ((∀ j, 0 ≤ vs j) → ∀ n, 0 ≤ (runtime vs).valueAt n) ∧
    (∀ n, (expoSchedule base factor (some m)).valueAt n ≤ m) ∧
    (∀ n, (expoSchedule base factor (some m)).valueAt n = m →
      ∀ k, (expoSchedule base factor (some m)).valueAt (n + k) = m) ∧
    (∀ n, (fiboSchedule (some m)).valueAt n ≤ m) ∧
    (∀ n, (fiboSchedule (some m)).valueAt n = m →
      ∀ k, (fiboSchedule (some m)).valueAt (n + k) = m) := by
  refine ⟨?_, ?_, ?_, ?_, ?_, ?_, ?_, ?_, ?_⟩
  · intro h n
    rw [constant_valueAt]
    exact h
  · intro hb hf hm n
    exact expoSchedule_valueAt_nonneg base factor maxValue hb hf hm n
  · intro hm n
    exact fiboSchedule_valueAt_nonneg maxValue hm n
  · intro hfl n
    exact decay_valueAt_nonneg initialValue decayFactor floorValue hfl n
  · intro hvs n
    exact runtime_valueAt_nonneg vs hvs n
  · exact expoSchedule_capped_le base factor m
  · exact fun n hn => expoSchedule_capped_stable base factor m n hn
  · exact fiboSchedule_capped_le m
  · exact fun n hn => fiboSchedule_capped_stable m n hn

theorem C4_witness :
    0 ≤ (constant 1).valueAt 0 ∧
    0 ≤ (expoSchedule 1 2 (some 1)).valueAt 0 ∧
    0 ≤ (fiboSchedule (some 1)).valueAt 0 ∧
    0 ≤ (decay 8 (1/2) 3).valueAt 0 ∧
    0 ≤ (runtime (fun _ => 1)).valueAt 0 ∧
    (expoSchedule 1 2 (some 1)).valueAt 5 ≤ 1 ∧
    (expoSchedule 1 2 (some 1)).valueAt (0 + 4) = 1 ∧
    (fiboSchedule (some 1)).valueAt 5 ≤ 1 ∧
    (fiboSchedule (some 1)).valueAt (0 + 4) = 1 := by
  have h := C4_schedule_invariants 1 1 2 1 8 (1/2) 3 (some 1) (fun _ => 1)
  have hsome : ∀ x : ℚ, some (1 : ℚ) = some x → 0 ≤ x := by
    intro x hx
    injection hx with hx
    rw [← hx]
    norm_num
  refine ⟨h.1 (by norm_num) 0,
    h.2.1 (by norm_num) (by norm_num) hsome 0,
    h.2.2.1 hsome 0,
    h.2.2.2.1 (by norm_num) 0,
    h.2.2.2.2.1 (fun _ => by norm_num) 0,
    h.2.2.2.2.2.1 5,
    h.2.2.2.2.2.2.1 0 (by decide) 4,
    h.2.2.2.2.2.2.2.1 5,
    h.2.2.2.2.2.2.2.2 0 (by decide) 4⟩

/-- C6: each call of a wrapped operation starts a fresh wait sequence from
the schedule's initial state: for any two independent calls, the waits the
`on_backoff` handlers of each call observe are exactly the initial prefix
of the schedule's canonical value stream (with jitter applied), so both
calls start from the schedule's first value with no state carried over. -/
theorem C6_fresh_wait_sequence_per_call {A K E V σ : Type} (tgt : String)
    (args : A) (kwargs : K) (retryable giveup : E → Bool) (jit : ℚ → ℚ)
    (clock : Nat → ℚ) (sched : WaitSchedule σ) (maxTries : Nat)
    (op₁ op₂ : Nat → AttemptOutcome E V) :
    backoffWaits (on_exception_call tgt args kwargs retryable giveup jit
        clock sched maxTries op₁).events =
      (List.range (backoffWaits (on_exception_call tgt args kwargs
        retryable giveup jit clock sched maxTries op₁).events).length).map
        (fun j => jit (sched.valueAt j)) ∧
    backoffWaits (on_exception_call tgt args kwargs retryable giveup jit
        clock sched maxTries op₂).events =
      (List.range (backoffWaits (on_exception_call tgt args kwargs
        retryable giveup jit clock sched maxTries op₂).events).length).map
        (fun j => jit (sched.valueAt j)) := by
  constructor <;>
    exact runExc_backoffWaits tgt args kwargs retryable giveup jit clock
      sched.next _ (maxTries - 1) 0 sched.init

/-- C7 counterexample: the claim asserts that for every wait value `w ≥ 0`
full jitter lands in the half-open interval `[0, w)`; at `w = 0` that
interval is empty, so the output (here with draw `u = 1/2`) cannot lie in
it. -/
theorem C7_counterexample :
    ¬ (0 ≤ full_jitter (1/2) 0 ∧ full_jitter (1/2) 0 < 0) := by
  norm_num [full_jitter]

/-- C7 (amended): for a random draw `u ∈ [0, 1)`, a wait `w ≥ 0` and a
jitter fraction `≥ 0`, full jitter is non-negative and lies in `[0, w)`
whenever `w > 0`, and random jitter is at least its input and
non-negative. -/
theorem C7_jitter_bounds (u jitterFraction w : ℚ) (hu0 : 0 ≤ u)
    (hu1 : u < 1) (hw : 0 ≤ w) (hjf : 0 ≤ jitterFraction) :
    0 ≤ full_jitter u w ∧
    (0 < w → full_jitter u w < w) ∧
    w ≤ random_jitter u jitterFraction w ∧
    0 ≤ random_jitter u jitterFraction w := by
  unfold full_jitter random_jitter
  have hextra : 0 ≤ u * (jitterFraction * w) :=
    mul_nonneg hu0 (mul_nonneg hjf hw)
  refine ⟨mul_nonneg hu0 hw, ?_, by linarith, by linarith⟩
  intro hw0
  calc u * w < 1 * w := mul_lt_mul_of_pos_right hu1 hw0
    _ = w := one_mul w

theorem C7_witness :
    0 ≤ full_jitter (1/2) 2 ∧
    ((0 : ℚ) < 2 → full_jitter (1/2) 2 < 2) ∧
    (2 : ℚ) ≤ random_jitter (1/2) 1 2 ∧
    0 ≤ random_jitter (1/2) 1 2 :=
  C7_jitter_bounds (1/2) 1 2 (by norm_num) (by norm_num) (by norm_num)
    (by norm_num)

/-- C8: configuring an exponential or fibonacci-like schedule with a cap
of 0 or below is rejected with an error at configuration time — no
schedule value is ever produced — while a positive cap yields the working
schedule. -/
theorem C8_invalid_cap_rejected (base factor m : ℚ) :
    (m ≤ 0 →
      expo base factor (some m) = Except.error ConfigError.invalidCap ∧
      fibo (some m) = Except.error ConfigError.invalidCap) ∧
    (0 < m →
      expo base factor (some m) =
        Except.ok (expoSchedule base factor (some m)) ∧
      fibo (some m) = Except.ok (fiboSchedule (some m))) := by
  constructor
  · intro hm
    have hc : capValid (some m) = false := by
      simp [capValid]
      linarith
    constructor <;> simp [expo, fibo, hc]
  · intro hm
    have hc : capValid (some m) = true := by
      simp [capValid]
      exact hm
    constructor <;> simp [expo, fibo, hc]

theorem C8_witness :
    (expo 1 2 (some 0) = Except.error ConfigError.invalidCap ∧
      fibo (some 0) = Except.error ConfigError.invalidCap) ∧
    (expo 1 2 (some 5) = Except.ok (expoSchedule 1 2 (some 5)) ∧
      fibo (some 5) = Except.ok (fiboSchedule (some 5))) :=
  ⟨(C8_invalid_cap_rejected 1 2 0).1 (by norm_num),
    (C8_invalid_cap_rejected 1 2 5).2 (by norm_num)⟩

/-- C9 counterexample: the claim requires every handler record in
exception mode to contain an exception field, but when the first attempt
succeeds the `on_success` handler of an `on_exception`-wrapped call
receives a record with no exception (there is no caught error to report),
as this concrete run shows. -/
theorem C9_counterexample :
    (on_exception_call "target" () () (fun _ : Nat => true)
      (fun _ : Nat => false) id zeroClock (constant 1) 1
      opAlwaysReturn).events.map
        (fun ev => (ev.kind, ev.details.exception.isSome)) =
      [(HandlerKind.success, false)] := by
  decide

/-- C9 (amended): every handler record carries the target identity, the
call's positional and keyword arguments, a 1-based attempt count and the
elapsed time; the wait field is present exactly for `on_backoff` records
(both modes); the value field is present exactly in predicate mode (all
its handlers); and the exception field is present in exception mode
exactly for the `on_backoff` and `on_giveup` records — the `on_success`
record carries no exception. -/
theorem C9_details_shape {A K E V σ : Type} (tgt : String) (args : A)
    (kwargs : K) (retryable giveup : E → Bool) (pred : V → Bool)
    (jit : ℚ → ℚ) (clock : Nat → ℚ) (sched : WaitSchedule σ)
    (maxTries : Nat) (opE opP : Nat → AttemptOutcome E V) :
    (∀ ev ∈ (on_exception_call tgt args kwargs retryable giveup jit clock
      sched maxTries opE).events,
      ev.details.target = tgt ∧ ev.details.args = args ∧
      ev.details.kwargs = kwargs ∧ 1 ≤ ev.details.tries ∧
      ev.details.value = none ∧
      (ev.details.wait.isSome = true ↔ ev.kind = HandlerKind.backoff) ∧
      (ev.details.exception.isSome = true ↔
        ev.kind ≠ HandlerKind.success)) ∧
    (∀ ev ∈ (on_predicate_call tgt args kwargs pred jit clock sched
      maxTries opP).events,
      ev.details.target = tgt ∧ ev.details.args = args ∧
      ev.details.kwargs = kwargs ∧ 1 ≤ ev.details.tries ∧
      ev.details.exception = none ∧ ev.details.value.isSome = true ∧
      (ev.details.wait.isSome = true ↔ ev.kind = HandlerKind.backoff)) :=
  ⟨runExc_events_shape tgt args kwargs retryable giveup jit clock
      sched.next opE (maxTries - 1) 0 sched.init,
    runPred_events_shape tgt args kwargs pred jit clock sched.next opP
      (maxTries - 1) 0 sched.init⟩

theorem C9_witness :
    sampleGiveupEvent ∈ (on_exception_call "target" () ()
      (fun _ : Nat => true) (fun _ : Nat => false) id zeroClock
      (constant 1) 1 opAlwaysRaise).events ∧
    (sampleGiveupEvent.details.target = "target" ∧
      sampleGiveupEvent.details.args = () ∧
      sampleGiveupEvent.details.kwargs = () ∧
      1 ≤ sampleGiveupEvent.details.tries ∧
      sampleGiveupEvent.details.value = none ∧
      (sampleGiveupEvent.details.wait.isSome = true ↔
        sampleGiveupEvent.kind = HandlerKind.backoff) ∧
      (sampleGiveupEvent.details.exception.isSome = true ↔
        sampleGiveupEvent.kind ≠ HandlerKind.success)) :=
  ⟨by decide,
    (C9_details_shape "target" () () (fun _ : Nat => true)
      (fun _ : Nat => false) (fun _ : Nat => true) id zeroClock
      (constant 1) 1 opAlwaysRaise opAlwaysRaise).1 sampleGiveupEvent
      (by decide)⟩

/-- C10: the logger option takes any of its four shapes — string
identifier, constructed logger object, constructed logger adapter, or the
disabled sentinel — and the wrapped call's observable behaviour (result,
attempts, handler invocations) is identical under all of them, in both
exception and predicate mode; only diagnostic emission may differ. -/
theorem C10_logger_shape_irrelevant {A K E V σ : Type}
    (l l₁ l₂ : MaybeLogger) (tgt : String) (args : A) (kwargs : K)
    (retryable giveup : E → Bool) (pred : V → Bool) (jit : ℚ → ℚ)
    (clock : Nat → ℚ) (sched : WaitSchedule σ) (maxTries : Nat)
    (opE opP : Nat → AttemptOutcome E V) :
    (on_exception_logged l tgt args kwargs retryable giveup jit clock
      sched maxTries opE).1 =
      on_exception_call tgt args kwargs retryable giveup jit clock sched
        maxTries opE ∧
    (on_exception_logged l₁ tgt args kwargs retryable giveup jit clock
      sched maxTries opE).1 =
      (on_exception_logged l₂ tgt args kwargs retryable giveup jit clock
        sched maxTries opE).1 ∧
    (on_predicate_logged l tgt args kwargs pred jit clock sched maxTries
      opP).1 =
      on_predicate_call tgt args kwargs pred jit clock sched maxTries
        opP ∧
    (on_predicate_logged l₁ tgt args kwargs pred jit clock sched maxTries
      opP).1 =
      (on_predicate_logged l₂ tgt args kwargs pred jit clock sched
        maxTries opP).1 :=
  ⟨rfl, rfl, rfl, rfl⟩
